import Mathlib

/-!
Shallow embedding of `src/py/image_preview.py` (a ComfyUI image-preview
bridge).  The dynamic adaptation layer of the two HTTP handlers
`process_image_preview` (source lines 82-442) and
`process_image_preview_chain` (source lines 444-665) is translated into
executable Lean definitions:

* Python's loosely typed JSON values become the inductive `Value`;
  Python floats are modelled exactly as rationals `ℚ` (all arithmetic the
  embedded code performs on them - `*`, `+`, `abs`, `np.clip`, truncating
  casts - is exact on the values the claims exercise).  JSON arrays and
  objects as parameter values are outside the model; no claim involves
  them.
* torch tensors become `Tensor` (a shape plus flattened rational data);
  arbitrary Python objects returned by a node entry point become `PyObj`.
* the host registry and the node classes are modelled by `NodeClass`,
  with the entry point as a function returning `Except Unit RetVal`
  (`Except.error ()` models a raised exception).
* external collaborators (base64/PIL decode, JPEG encode, the cv2
  colour-space and convolution routines) enter as parameters of the
  handler definitions; all control flow around them is embedded from the
  source.
-/

section ImagePreviewModel

attribute [local semireducible] Rat.mul Rat.add Rat.sub Rat.inv

/-- `prefixMatch pat cs`: `pat` is a prefix of `cs`. -/
def prefixMatch : List Char → List Char → Bool
  | [], _ => true
  | _ :: _, [] => false
  | c :: cs, d :: ds => c == d && prefixMatch cs ds

/-- `hasSubstr pat cs`: `pat` occurs contiguously in `cs`. -/
def hasSubstr (pat : List Char) : List Char → Bool
  | [] => pat.isEmpty
  | c :: cs => prefixMatch pat (c :: cs) || hasSubstr pat cs

/-- Python's substring test `pat in s`. -/
def strContains (s pat : String) : Bool := hasSubstr pat.data s.data

/-- Split a character list at every occurrence of `c`. -/
def splitOnChar (c : Char) : List Char → List (List Char)
  | [] => [[]]
  | d :: ds =>
    match splitOnChar c ds with
    | [] => [[d]]
    | g :: gs => if d == c then [] :: g :: gs else (d :: g) :: gs

/-- A loosely typed wire value (JSON: null / bool / number / string).
Python floats are modelled as exact rationals. -/
inductive Value where
  | vNone : Value
  | vBool : Bool → Value
  | vInt : Int → Value
  | vFloat : ℚ → Value
  | vStr : String → Value
  deriving DecidableEq, Repr

/-- Strip a leading sign; returns (isNegative, rest). -/
def stripSignChars : List Char → Bool × List Char
  | '-' :: rest => (true, rest)
  | '+' :: rest => (false, rest)
  | cs => (false, cs)

def digitsVal (cs : List Char) : Nat :=
  cs.foldl (fun a c => a * 10 + (c.toNat - 48)) 0

def allDigits (cs : List Char) : Bool := !cs.isEmpty && cs.all Char.isDigit

/-- Decimal mantissa: `123`, `1.5`, `1.`, `.5`. -/
def parseMantissaChars (cs : List Char) : Option ℚ :=
  match splitOnChar '.' cs with
  | [a] => if allDigits a then some ((digitsVal a : ℚ)) else none
  | [a, b] =>
    if a.isEmpty && b.isEmpty then none
    else if a.all Char.isDigit && b.all Char.isDigit then
      some ((digitsVal a : ℚ) + (digitsVal b : ℚ) / (10 : ℚ) ^ b.length)
    else none
  | _ => none

def parseExpChars (cs : List Char) : Option Int :=
  let p := stripSignChars cs
  if allDigits p.2 then
    some (if p.1 then -(digitsVal p.2 : Int) else (digitsVal p.2 : Int))
  else none

/-- Model of Python `float(s)` on strings: sign, decimal mantissa,
optional `e`/`E` exponent.  (Python additionally accepts surrounding
whitespace, `inf`/`nan` and digit underscores; such inputs are outside
the claims and left unparsed here.) -/
def parseFloatChars (cs : List Char) : Option ℚ :=
  let p := stripSignChars cs
  let core :=
    match splitOnChar 'e' p.2 with
    | [m] =>
      match splitOnChar 'E' m with
      | [m2] => parseMantissaChars m2
      | [m2, e2] => (parseMantissaChars m2).bind
          (fun q => (parseExpChars e2).map (fun z => q * (10 : ℚ) ^ z))
      | _ => none
    | [m, e] => (parseMantissaChars m).bind
        (fun q => (parseExpChars e).map (fun z => q * (10 : ℚ) ^ z))
    | _ => none
  core.map (fun q => if p.1 then -q else q)

/-- Model of Python `int(s)` on strings: sign plus digits only
(`int("3.5")` raises). -/
def parseIntChars (cs : List Char) : Option Int :=
  let p := stripSignChars cs
  if allDigits p.2 then
    some (if p.1 then -(digitsVal p.2 : Int) else (digitsVal p.2 : Int))
  else none

/-- Truncation toward zero of a non-negative rational (model of numpy's
float → uint8 C cast on the non-negative values the code feeds it;
negative inputs yield 0). -/
def truncQ (q : ℚ) : Nat := q.num.toNat / q.den

/-- Truncation toward zero (Python `int()` on a float). -/
def ratTruncZ (q : ℚ) : Int :=
  if 0 ≤ q then ((q.num.toNat / q.den : Nat) : Int)
  else -(((-q).num.toNat / q.den : Nat) : Int)

/-- Python `float(v)`: `none` models a raised `ValueError`/`TypeError`
(for example on `None` or an unparsable string). -/
def pyFloat : Value → Option ℚ
  | .vFloat q => some q
  | .vInt n => some ((n : ℚ))
  | .vBool b => some (if b then 1 else 0)
  | .vStr s => parseFloatChars s.data
  | .vNone => none

/-- Python `int(v)`: `none` models a raised exception. -/
def pyInt : Value → Option Int
  | .vInt n => some n
  | .vFloat q => some (ratTruncZ q)
  | .vBool b => some (if b then 1 else 0)
  | .vStr s => parseIntChars s.data
  | .vNone => none

/-- Python truthiness, `bool(v)`. -/
def pyTruthy : Value → Bool
  | .vNone => false
  | .vBool b => b
  | .vInt n => n != 0
  | .vFloat q => q != 0
  | .vStr s => !s.isEmpty

def quoteStr (s : String) : String := "\x27" ++ s ++ "\x27"

/-- Python `repr` of a wire value; used only to model the substring tests
the code performs on `str(req_type)`.  Number formatting is approximated
(a number's text never contains the uppercase words being searched). -/
def valRepr : Value → String
  | .vNone => "None"
  | .vBool true => "True"
  | .vBool false => "False"
  | .vInt n => toString n
  | .vFloat q => toString q.num ++ "/" ++ toString q.den
  | .vStr s => quoteStr s

/-- Python `str(v)` (equal to `repr` for non-strings among these types). -/
def pyStr : Value → String
  | .vStr s => s
  | v => valRepr v

example : pyFloat (.vStr "1.5") = some (3/2) := by decide
example : pyFloat (.vStr "abc") = none := by decide
example : pyFloat (.vStr "-2e2") = some (-200) := by decide
example : pyInt (.vStr "3.5") = none := by decide
example : truncQ (997/10) = 99 := by decide

/-- The second component of a schema tuple `(TYPE, ...)`: absent
(one-element tuple), a non-dict object (kept as its repr text), or an
options dict such as `(TYPE, {"default": 1.0, "min": 0.0})`. -/
inductive TupSnd where
  | absent
  | nonDict (r : String)
  | dict (entries : List (String × Value))
  deriving DecidableEq, Repr

/-- The schema entry value `req_type`: either a bare non-tuple object
(for example the string `"UNIQUE_ID"`) or a ComfyUI-style tuple whose
first element is the type-name string. -/
inductive PType where
  | bare (s : String)
  | tup (tyName : String) (snd : TupSnd)
  deriving DecidableEq, Repr

def dictEntriesRepr : List (String × Value) → String
  | [] => ""
  | [p] => quoteStr p.1 ++ ": " ++ valRepr p.2
  | p :: rest => quoteStr p.1 ++ ": " ++ valRepr p.2 ++ ", " ++ dictEntriesRepr rest

/-- Python `str(req_type)`, the text the code's `in` tests search. -/
def ptyStr : PType → String
  | .bare s => s
  | .tup t .absent => "(" ++ quoteStr t ++ ",)"
  | .tup t (.nonDict r) => "(" ++ quoteStr t ++ ", " ++ r ++ ")"
  | .tup t (.dict es) => "(" ++ quoteStr t ++ ", \x7b" ++ dictEntriesRepr es ++ "\x7d)"

/-- Exact-key lookup in an association list (Python dict access;
iteration order is list order, mirroring dict insertion order). -/
def argLookup {α : Type} (k : String) : List (String × α) → Option α
  | [] => none
  | p :: rest => if p.1 = k then some p.2 else argLookup k rest

/-- Python `k in d`. -/
def hasKeyS {α : Type} (k : String) : List (String × α) → Bool
  | [] => false
  | p :: rest => if p.1 = k then true else hasKeyS k rest

/-- Python `d[k] = v`: overwrite in place, else append. -/
def setArg {α : Type} : List (String × α) → String → α → List (String × α)
  | [], k, v => [(k, v)]
  | p :: rest, k, v => if p.1 = k then (k, v) :: rest else p :: setArg rest k v

def lowerChars (s : String) : List Char := s.data.map Char.toLower

/-- The case-insensitive fallback match of source lines 201-206: first
entry whose lowercased key equals the lowercased wanted key wins, in
mapping iteration order. -/
def ciLookup (k : String) : List (String × Value) → Option Value
  | [] => none
  | p :: rest => if lowerChars p.1 = lowerChars k then some p.2 else ciLookup k rest

/-- Source lines 210-213: a declared default exists only when the schema
entry is a tuple of length > 1 whose second element is a dict containing
`"default"`. -/
def defaultOf : PType → Option Value
  | .tup _ (.dict es) => argLookup "default" es
  | _ => none

/-- Source lines 187-188 (and 538): skip hidden identity parameters. -/
def isHiddenEntry (k : String) (ty : PType) : Bool :=
  k == "unique_id" || strContains (ptyStr ty) "UNIQUE_ID"

/-- Source lines 190-192 (and 541): bind the image argument. -/
def isImageEntry (k : String) (ty : PType) : Bool :=
  k == "image" || strContains (ptyStr ty) "IMAGE"

/-- Source lines 197-206: exact key match first, else case-insensitive
match (the else-branch runs only when the exact key is absent). -/
def resolveRaw (params : List (String × Value)) (k : String) : Option Value :=
  match argLookup k params with
  | some v => some v
  | none => ciLookup k params

/-- Source lines 194-213 combined: a resolved (or default) value of
`None` leaves `param_value is None` true, so the entry stays unresolved
(`none` here) and is omitted by the `param_value is not None` guard. -/
def resolveParam (params : List (String × Value)) (ty : PType) (k : String) : Option Value :=
  let pv := match resolveRaw params k with
    | some v => if v = Value.vNone then defaultOf ty else some v
    | none => defaultOf ty
  match pv with
  | some v => if v = Value.vNone then none else some v
  | none => none

/-- The effective coercion branch of source lines 217-235, dispatching on
substring tests of `type_name = str(req_type[0])` in source order. -/
inductive CoTag where
  | tFloat | tInt | tBool | tStr | tPass
  deriving DecidableEq, Repr

def effTag : PType → CoTag
  | .bare _ => .tPass
  | .tup tyName _ =>
    if strContains tyName "FLOAT" || strContains tyName "float" then .tFloat
    else if strContains tyName "INT" || strContains tyName "int" then .tInt
    else if strContains tyName "BOOLEAN" || strContains tyName "bool" then .tBool
    else if strContains tyName "STRING" || strContains tyName "str" then .tStr
    else .tPass

/-- Type-directed coercion for required entries (source lines 215-238):
numeric parse failures keep the raw value; bool and str never fail; an
unrecognized tag, or a non-tuple schema entry, passes the value through. -/
def coerceParam (ty : PType) (v : Value) : Value :=
  match effTag ty with
  | .tFloat => match pyFloat v with | some q => .vFloat q | none => v
  | .tInt => match pyInt v with | some n => .vInt n | none => v
  | .tBool => .vBool (pyTruthy v)
  | .tStr => .vStr (pyStr v)
  | .tPass => v

/-- The optional-entry coercion of source lines 246-259: only the
uppercase `FLOAT` and `INT` substrings are tested there. -/
def effTagOpt : PType → CoTag
  | .bare _ => .tPass
  | .tup tyName _ =>
    if strContains tyName "FLOAT" then .tFloat
    else if strContains tyName "INT" then .tInt
    else .tPass

def coerceOpt (ty : PType) (v : Value) : Value :=
  match effTagOpt ty with
  | .tFloat => match pyFloat v with | some q => .vFloat q | none => v
  | .tInt => match pyInt v with | some n => .vInt n | none => v
  | _ => v

/-- A torch tensor: shape plus flattened rational data. -/
structure Tensor where
  shape : List Nat
  data : List ℚ
  deriving DecidableEq, Repr

/-- An arbitrary Python object as far as the result-normalizing code can
observe it: a torch tensor, or a non-tensor carrying the outcomes of the
three conversion attempts the code may apply to it (`x.to(float32)`,
`torch.from_numpy(x).float()`, `torch.tensor(x)`); `none` models the
conversion raising.  `.to` on a duck-typed object may return any object,
hence `toConv : Option PyObj`. -/
inductive PyObj where
  | tens (t : Tensor)
  | nonTensor (hasTo hasCpu : Bool) (toConv : Option PyObj)
      (cpuConv tenConv : Option Tensor)

/-- The raw return value of a node entry point: `None`, a tuple, or a
single object. -/
inductive RetVal where
  | retNone
  | retTup (elems : List PyObj)
  | retObj (o : PyObj)

/-- A call-parameter value: the bound image object or a wire value. -/
inductive PArg where
  | obj (o : PyObj)
  | val (v : Value)

/-- The result of `INPUT_TYPES()`: the `"required"`/`"optional"`
sub-dicts, each an ordered mapping name → schema entry (`none` models
the sub-dict being absent).  The `"hidden"` sub-dict is never read by
the embedded handlers. -/
structure Schema where
  required : Option (List (String × PType))
  optional : Option (List (String × PType))

/-- A registry entry: the node class together with the instance obtained
from its zero-argument constructor.  `inputTypes = none` models a class
without `INPUT_TYPES`; `attrs` are the attribute names `hasattr` can
see; `func` is the behaviour of the resolved entry point when called
with the adapted arguments (`Except.error ()` models it raising). -/
structure NodeClass where
  inputTypes : Option Schema
  functionAttr : Option String
  attrs : List String
  func : List (String × PArg) → Except Unit RetVal

/-- Source lines 166-178 (and 520-531): the `FUNCTION` attribute if
present, else the first conventional name that exists; then the
`func_name and hasattr(...)` guard. -/
def resolveFuncName (nc : NodeClass) : Option String :=
  let fn := match nc.functionAttr with
    | some f => some f
    | none => ["execute", "process", "run", "apply", "transform"].find?
        (fun n => nc.attrs.contains n)
  match fn with
  | some f => if f.isEmpty then none else if nc.attrs.contains f then some f else none
  | none => none

/-- One iteration of the required-parameter loop (source lines 184-238,
identical at 536-579): skip hidden entries, bind the image, else resolve
and coerce, omitting the key when no value was resolved. -/
def reqStep (img : PyObj) (params : List (String × Value))
    (acc : List (String × PArg)) (e : String × PType) : List (String × PArg) :=
  if isHiddenEntry e.1 e.2 then acc
  else if isImageEntry e.1 e.2 then setArg acc e.1 (.obj img)
  else match resolveParam params e.2 e.1 with
    | none => acc
    | some v => setArg acc e.1 (.val (coerceParam e.2 v))

def buildReqList (img : PyObj) (params : List (String × Value)) :
    List (String × PType) → List (String × PArg) → List (String × PArg)
  | [], acc => acc
  | e :: rest, acc => buildReqList img params rest (reqStep img params acc e)

/-- The `call_params` contributed by the `"required"` sub-dict. -/
def buildRequired (img : PyObj) (it : Schema) (params : List (String × Value)) :
    List (String × PArg) :=
  match it.required with
  | none => []
  | some entries => buildReqList img params entries []

/-- One iteration of the optional-parameter loop (source lines 241-261):
only an exact key match in `params`, only when the key is not already
bound, with the reduced coercion of `coerceOpt`. -/
def optStep (params : List (String × Value))
    (acc : List (String × PArg)) (e : String × PType) : List (String × PArg) :=
  match argLookup e.1 params with
  | some v => if hasKeyS e.1 acc then acc else setArg acc e.1 (.val (coerceOpt e.2 v))
  | none => acc

def buildOptList (params : List (String × Value)) :
    List (String × PType) → List (String × PArg) → List (String × PArg)
  | [], acc => acc
  | e :: rest, acc => buildOptList params rest (optStep params acc e)

/-- The full `call_params` construction of the single-node endpoint
(source lines 181-265): required loop, optional loop, then the
convenience binding of `"image"` when the schema never bound it but
`params` contains that literal key. -/
def buildCallParamsSingle (timg : Tensor) (it : Schema)
    (params : List (String × Value)) : List (String × PArg) :=
  let cp := buildRequired (.tens timg) it params
  let cp2 := match it.optional with
    | none => cp
    | some oes => buildOptList params oes cp
  if hasKeyS "image" cp2 then cp2
  else if hasKeyS "image" params then setArg cp2 "image" (.obj (.tens timg))
  else cp2

/-- Result normalization of the single-node endpoint (source lines
275-309), followed by the validation of lines 304-309: any non-tensor or
tensor of rank < 3 becomes `none` (triggering the fallback). -/
def normalizeSingle (r : RetVal) : Option Tensor :=
  let pt : Option PyObj :=
    match r with
    | .retNone => none
    | .retTup [] => none
    | .retTup (x :: _) =>
      match x with
      | .tens t => some (.tens t)
      | .nonTensor _ _ _ _ tenC => tenC.map PyObj.tens
    | .retObj (.tens t) => some (.tens t)
    | .retObj (.nonTensor hasTo hasCpu toC cpuC tenC) =>
      if hasTo then toC
      else if hasCpu then cpuC.map PyObj.tens
      else tenC.map PyObj.tens
  match pt with
  | some (.tens t) => if t.shape.length < 3 then none else some t
  | some (.nonTensor _ _ _ _ _) => none
  | none => none

/-- Method 1 of the single-node endpoint (source lines 113-322): resolve
the node class, its schema and entry point, invoke it with the adapted
arguments and normalize.  Every failure - registry not found, unknown
type, no `INPUT_TYPES`, no entry point, a raised exception, an unusable
return value - yields `none` (all exceptions are swallowed at lines
314-322).  `mappings` is the net result of the three registry probing
strategies (lines 116-155), which only read the runtime environment. -/
def invokeNode (mappings : Option (List (String × NodeClass))) (nt : String)
    (params : List (String × Value)) (timg : Tensor) : Option Tensor :=
  match mappings with
  | none => none
  | some m =>
    match argLookup nt m with
    | none => none
    | some nc =>
      match nc.inputTypes with
      | none => none
      | some it =>
        match resolveFuncName nc with
        | none => none
        | some _ =>
          match nc.func (buildCallParamsSingle timg it params) with
          | .error _ => none
          | .ok r => normalizeSingle r

/-- `np.clip(x, 0.1, 10.0)` and friends. -/
def npClip (lo hi x : ℚ) : ℚ := min hi (max lo x)

/-- The brightness factor of source lines 347-348, including the chained
conditional `value if value > 0 else 1.0/abs(value) if abs(value) > 0.1
else 1.0`. -/
def brightFactor (v : ℚ) : ℚ :=
  npClip (1/10) 10 (if 0 < v then v else if 1/10 < |v| then 1 / |v| else 1)

/-- One iteration of the generic fallback loop (source lines 337-385)
over a single parameter value.  `hsv` and `sharpen` stand for the
cv2-based HSV adjustment (lines 358-369) and unsharp convolution (lines
373-379), which rewrite the whole buffer through the external library;
`useCv2` models whether `import cv2` succeeded.  Unparsable values and
values within 1e-4 of 0 or of 1 are skipped (`continue`); a processed
value ends with one `np.clip(processed_img, 0, 255)` (line 382). -/
def fallbackParamStep (useCv2 : Bool) (hsv sharpen : ℚ → List ℚ → List ℚ)
    (img : List ℚ) (pv : Value) : List ℚ :=
  match pyFloat pv with
  | none => img
  | some v =>
    if |v| < 1/10000 ∨ |v - 1| < 1/10000 then img
    else
      let img1 := if 1/10 ≤ |v| ∧ |v| ≤ 10 then img.map (fun x => x * brightFactor v)
        else img
      let img2 := if 1/100 < |v| then img1.map (fun x => x + v * (3/10)) else img1
      let img3 := if useCv2 ∧ 1/100 < |v| then hsv v img2 else img2
      let img4 := if useCv2 ∧ 1/10 < |v| then sharpen v img3 else img3
      img4.map (fun x => npClip 0 255 x)

def fallbackLoop (useCv2 : Bool) (hsv sharpen : ℚ → List ℚ → List ℚ) :
    List ℚ → List (String × Value) → List ℚ
  | img, [] => img
  | img, p :: rest =>
    fallbackLoop useCv2 hsv sharpen (fallbackParamStep useCv2 hsv sharpen img p.2) rest

/-- The value of one uint8 channel as a rational
(`astype(np.float32)`). -/
def u8ToQ (n : Nat) : ℚ := (n : ℚ)

/-- The full generic fallback transform (source lines 325-388) at the
uint8 level: `img_array.copy().astype(np.float32)`, the parameter loop,
then `astype(np.uint8)`. -/
def fallbackUint8 (useCv2 : Bool) (hsv sharpen : ℚ → List ℚ → List ℚ)
    (img : List Nat) (params : List (String × Value)) : List Nat :=
  (fallbackLoop useCv2 hsv sharpen (img.map u8ToQ) params).map truncQ

/-- A decoded image: the numpy array `np.array(pil_image)` - its shape
and flattened uint8 data. -/
structure ImgArray where
  shape : List Nat
  data : List Nat
  deriving DecidableEq, Repr

/-- Source line 105 (and 471): `torch.from_numpy(img_array.astype(
np.float32) / 255.0).unsqueeze(0)`. -/
def mkTensor (arr : ImgArray) : Tensor :=
  ⟨1 :: arr.shape, arr.data.map (fun n => (n : ℚ) / 255)⟩

/-- Source line 389: the fallback result becomes the processed tensor. -/
def fallbackTensor (useCv2 : Bool) (hsv sharpen : ℚ → List ℚ → List ℚ)
    (arr : ImgArray) (params : List (String × Value)) : Tensor :=
  ⟨1 :: arr.shape, (fallbackUint8 useCv2 hsv sharpen arr.data params).map
    (fun n => (n : ℚ) / 255)⟩

/-- Source line 393 (and 626): `(torch.clamp(t, 0, 1) * 255)...astype(
np.uint8)[0]` at the data level. -/
def encodeTensor (t : Tensor) : List Nat :=
  t.data.map (fun q => truncQ (npClip 0 1 q * 255))

/-- The request body of `/image_preview/process`: `image_data` (absent
or a base64 string), `params` and `node_type` with their `data.get`
defaults. -/
structure ProcBody where
  imageData : Option String
  nodeType : String
  params : List (String × Value)

/-- The observable response of the single-node endpoint: a success JSON
carrying the processed uint8 image (JPEG/base64 packaging is external
glue), or the HTTP 500 error response of lines 428-442. -/
inductive ProcResponse where
  | ok (imageOut : List Nat)
  | serverError

/-- The handler `process_image_preview` (source lines 82-442).  `dec`
models the external base64 + PIL decode of lines 93-98 (`none` = it
raised); a non-string `image_data` or a decoded array whose rank is not
3 raises a `ValueError` caught at line 428.  After method 1, a `None`
`processed_tensor` falls back to the generic transform; the final tensor
is clamped, scaled and encoded. -/
def process_image_preview (dec : String → Option ImgArray)
    (mappings : Option (List (String × NodeClass))) (useCv2 : Bool)
    (hsv sharpen : ℚ → List ℚ → List ℚ) (body : ProcBody) : ProcResponse :=
  match body.imageData with
  | none => .serverError
  | some s =>
    match dec s with
    | none => .serverError
    | some arr =>
      if arr.shape.length = 3 then
        let timg := mkTensor arr
        let pt := if body.nodeType ≠ "" then invokeNode mappings body.nodeType body.params timg
          else none
        let finalT := match pt with
          | some t => t
          | none => fallbackTensor useCv2 hsv sharpen arr body.params
        .ok (encodeTensor finalT)
      else .serverError

/-- Chain-side result handling (source lines 582-611): `current_tensor`
is overwritten by the classified result BEFORE the rank validation of
line 604, whose `continue` only skips the success log.  Only a raised
exception, a `None` result, an empty tuple, or a raising conversion
leave the previous value in place. -/
def chainNormalize (cur : PyObj) (res : Except Unit RetVal) : PyObj :=
  match res with
  | .error _ => cur
  | .ok .retNone => cur
  | .ok (.retTup []) => cur
  | .ok (.retTup (x :: _)) => x
  | .ok (.retObj (.tens t)) => .tens t
  | .ok (.retObj (.nonTensor hasTo hasCpu toC cpuC tenC)) =>
    if hasTo then (match toC with | some o => o | none => cur)
    else if hasCpu then (match cpuC with | some t => .tens t | none => cur)
    else (match tenC with | some t => .tens t | none => cur)

/-- One stage of the chain descriptor, `{type, params}` with `data.get`
defaults. -/
structure StageSpec where
  ntype : String
  params : List (String × Value)

/-- One chain stage (source lines 505-623): unknown or empty type, a
missing registry, no `INPUT_TYPES` or no entry point skip the stage with
the carried value unchanged; otherwise invoke on the required-only
adapted arguments (the chain loop has no optional-parameter pass and no
literal-`"image"` convenience binding) and classify via
`chainNormalize`.  NOTE the image argument is the carried `PyObj`,
which a previous faulty stage may have left as a non-tensor. -/
def chainStageStep (mappings : Option (List (String × NodeClass)))
    (cur : PyObj) (st : StageSpec) : PyObj :=
  if st.ntype = "" then cur
  else match mappings with
  | none => cur
  | some m =>
    match argLookup st.ntype m with
    | none => cur
    | some nc =>
      match nc.inputTypes with
      | none => cur
      | some it =>
        match resolveFuncName nc with
        | none => cur
        | some _ => chainNormalize cur (nc.func (buildRequired cur it st.params))

def runChain (mappings : Option (List (String × NodeClass))) :
    PyObj → List StageSpec → PyObj
  | cur, [] => cur
  | cur, st :: rest => runChain mappings (chainStageStep mappings cur st) rest

/-- The request body of `/image_preview/process_chain`. -/
structure ChainBody where
  imageData : Option String
  chainField : Option (List StageSpec)

/-- The observable response of the chain endpoint: HTTP 400 with an
error string for an empty chain, HTTP 500 (lines 651-665) or a success
JSON with the encoded final image. -/
inductive ChainResponse where
  | ok (imageOut : List Nat)
  | badRequest (err : String)
  | serverError
  deriving Repr

/-- The handler `process_image_preview_chain` (source lines 444-665).
The empty-chain 400 response (lines 452-456) precedes any image
work; decode failures raise into the 500 branch; a non-tensor final
carried value makes the `torch.clamp` at line 626 raise, also a 500. -/
def process_image_preview_chain (dec : String → Option ImgArray)
    (mappings : Option (List (String × NodeClass))) (body : ChainBody) : ChainResponse :=
  let chain := body.chainField.getD []
  if chain.isEmpty then .badRequest "节点链为空"
  else match body.imageData with
  | none => .serverError
  | some s =>
    match dec s with
    | none => .serverError
    | some arr =>
      if arr.shape.length = 3 then
        match runChain mappings (.tens (mkTensor arr)) chain with
        | .tens t => .ok (encodeTensor t)
        | .nonTensor _ _ _ _ _ => .serverError
      else .serverError

/-! ### Association-list lemmas -/

theorem argLookup_setArg_self {α : Type} (m : List (String × α)) (k : String) (v : α) :
    argLookup k (setArg m k v) = some v := by
  induction m with
  | nil => simp [setArg, argLookup]
  | cons p rest ih =>
    by_cases h : p.1 = k
    · simp [setArg, h, argLookup]
    · simp [setArg, h, argLookup, ih]

theorem argLookup_setArg_ne {α : Type} (m : List (String × α)) (k k2 : String) (v : α)
    (h : k ≠ k2) : argLookup k (setArg m k2 v) = argLookup k m := by
  induction m with
  | nil => simp [setArg, argLookup, Ne.symm h]
  | cons p rest ih =>
    by_cases hp : p.1 = k2
    · simp [setArg, hp, argLookup, Ne.symm h]
    · simp only [setArg, if_neg hp, argLookup]
      by_cases hk : p.1 = k
      · simp [hk]
      · simp [hk, ih]

theorem hasKeyS_of_lookup {α : Type} (m : List (String × α)) (k : String) (v : α)
    (h : argLookup k m = some v) : hasKeyS k m = true := by
  induction m with
  | nil => simp [argLookup] at h
  | cons p rest ih =>
    by_cases hp : p.1 = k
    · simp [hasKeyS, hp]
    · simp only [argLookup, if_neg hp] at h
      simp [hasKeyS, hp, ih h]

theorem hasKeyS_setArg_ne {α : Type} (m : List (String × α)) (k k2 : String) (v : α)
    (h : k ≠ k2) : hasKeyS k (setArg m k2 v) = hasKeyS k m := by
  induction m with
  | nil => simp [setArg, hasKeyS, Ne.symm h]
  | cons p rest ih =>
    by_cases hp : p.1 = k2
    · simp [setArg, hp, hasKeyS, Ne.symm h]
    · simp only [setArg, if_neg hp, hasKeyS]
      by_cases hk : p.1 = k
      · simp [hk]
      · simp [hk, ih]

/-! ### Required-loop lemmas -/

theorem nodup_head_key {β : Type} (e : String × β) (rest : List (String × β))
    (hnodup : (List.map Prod.fst (e :: rest)).Nodup) : e.1 ∉ List.map Prod.fst rest := by
  rw [List.map_cons] at hnodup
  exact (List.nodup_cons.mp hnodup).1

theorem nodup_tail_keys {β : Type} (e : String × β) (rest : List (String × β))
    (hnodup : (List.map Prod.fst (e :: rest)).Nodup) : (List.map Prod.fst rest).Nodup := by
  rw [List.map_cons] at hnodup
  exact (List.nodup_cons.mp hnodup).2

theorem mem_key_in_map {β : Type} (k : String) (ty : β) (l : List (String × β))
    (h : (k, ty) ∈ l) : k ∈ List.map Prod.fst l :=
  List.mem_map_of_mem Prod.fst h

theorem reqStep_lookup_ne (img : PyObj) (params : List (String × Value))
    (acc : List (String × PArg)) (e : String × PType) (k : String) (hne : e.1 ≠ k) :
    argLookup k (reqStep img params acc e) = argLookup k acc := by
  unfold reqStep
  split
  · rfl
  · split
    · exact argLookup_setArg_ne _ _ _ _ (Ne.symm hne)
    · split
      · rfl
      · exact argLookup_setArg_ne _ _ _ _ (Ne.symm hne)

theorem buildReqList_lookup_ne (img : PyObj) (params : List (String × Value))
    (entries : List (String × PType)) (acc : List (String × PArg)) (k : String)
    (h : ∀ e ∈ entries, e.1 ≠ k) :
    argLookup k (buildReqList img params entries acc) = argLookup k acc := by
  induction entries generalizing acc with
  | nil => rfl
  | cons e rest ih =>
    rw [buildReqList, ih _ (fun x hx => h x (List.mem_cons_of_mem e hx)),
      reqStep_lookup_ne img params acc e k (h e (List.mem_cons_self e rest))]

/-- Core of claim C2: a required entry that is neither hidden nor an
image binding and whose value resolution fails is omitted. -/
theorem buildReqList_omitted (img : PyObj) (params : List (String × Value))
    (entries : List (String × PType)) (k : String) (ty : PType)
    (hmem : (k, ty) ∈ entries) (hnodup : (entries.map Prod.fst).Nodup)
    (hhid : isHiddenEntry k ty = false) (himg : isImageEntry k ty = false)
    (hres : resolveParam params ty k = none)
    (acc : List (String × PArg)) (hacc : argLookup k acc = none) :
    argLookup k (buildReqList img params entries acc) = none := by
  induction entries generalizing acc with
  | nil => simp at hmem
  | cons e rest ih =>
    rcases List.mem_cons.mp hmem with he | hrest
    · have hstep : reqStep img params acc e = acc := by
        rw [← he]
        unfold reqStep
        rw [hhid, himg]
        simp [hres]
      have hkeys : ∀ x ∈ rest, x.1 ≠ k := by
        intro x hx hxk
        have h1 := nodup_head_key e rest hnodup
        rw [← he] at h1
        apply h1
        show k ∈ List.map Prod.fst rest
        rw [← hxk]
        exact List.mem_map_of_mem Prod.fst hx
      rw [buildReqList, hstep, buildReqList_lookup_ne img params rest acc k hkeys, hacc]
    · have hne : e.1 ≠ k := by
        intro hk
        apply nodup_head_key e rest hnodup
        rw [hk]
        exact mem_key_in_map k ty rest hrest
      have hacc2 : argLookup k (reqStep img params acc e) = none := by
        rw [reqStep_lookup_ne img params acc e k hne, hacc]
      exact ih hrest (nodup_tail_keys e rest hnodup) _ hacc2

/-- Core of claim C3: a required entry that is neither hidden nor an
image binding and whose resolution succeeds is bound to the coerced
value. -/
theorem buildReqList_resolved (img : PyObj) (params : List (String × Value))
    (entries : List (String × PType)) (k : String) (ty : PType) (v : Value)
    (hmem : (k, ty) ∈ entries) (hnodup : (entries.map Prod.fst).Nodup)
    (hhid : isHiddenEntry k ty = false) (himg : isImageEntry k ty = false)
    (hres : resolveParam params ty k = some v)
    (acc : List (String × PArg)) :
    argLookup k (buildReqList img params entries acc) = some (.val (coerceParam ty v)) := by
  induction entries generalizing acc with
  | nil => simp at hmem
  | cons e rest ih =>
    rcases List.mem_cons.mp hmem with he | hrest
    · have hstep : reqStep img params acc e = setArg acc k (.val (coerceParam ty v)) := by
        rw [← he]
        unfold reqStep
        rw [hhid, himg]
        simp [hres]
      have hkeys : ∀ x ∈ rest, x.1 ≠ k := by
        intro x hx hxk
        have h1 := nodup_head_key e rest hnodup
        rw [← he] at h1
        apply h1
        show k ∈ List.map Prod.fst rest
        rw [← hxk]
        exact List.mem_map_of_mem Prod.fst hx
      rw [buildReqList, hstep, buildReqList_lookup_ne img params rest _ k hkeys,
        argLookup_setArg_self]
    · exact ih hrest (nodup_tail_keys e rest hnodup) _

/-! ### Optional-loop lemmas -/

theorem optStep_lookup_ne (params : List (String × Value)) (acc : List (String × PArg))
    (e : String × PType) (k : String) (hne : e.1 ≠ k) :
    argLookup k (optStep params acc e) = argLookup k acc := by
  unfold optStep
  split
  · split
    · rfl
    · exact argLookup_setArg_ne _ _ _ _ (Ne.symm hne)
  · rfl

theorem optStep_hasKey_ne (params : List (String × Value)) (acc : List (String × PArg))
    (e : String × PType) (k : String) (hne : e.1 ≠ k) :
    hasKeyS k (optStep params acc e) = hasKeyS k acc := by
  unfold optStep
  split
  · split
    · rfl
    · exact hasKeyS_setArg_ne _ _ _ _ (Ne.symm hne)
  · rfl

theorem buildOptList_preserve_some (params : List (String × Value))
    (oes : List (String × PType)) (acc : List (String × PArg)) (k : String) (w : PArg)
    (h : argLookup k acc = some w) :
    argLookup k (buildOptList params oes acc) = some w := by
  induction oes generalizing acc with
  | nil => exact h
  | cons e rest ih =>
    rw [buildOptList]
    by_cases he : e.1 = k
    · have hstep : optStep params acc e = acc := by
        unfold optStep
        rw [he]
        cases hl : argLookup k params with
        | none => rfl
        | some v => simp [hasKeyS_of_lookup acc k w h]
      rw [hstep]; exact ih _ h
    · have : argLookup k (optStep params acc e) = some w := by
        rw [optStep_lookup_ne params acc e k he, h]
      exact ih _ this

theorem buildOptList_preserve_noparam (params : List (String × Value))
    (oes : List (String × PType)) (acc : List (String × PArg)) (k : String)
    (hp : argLookup k params = none) :
    argLookup k (buildOptList params oes acc) = argLookup k acc := by
  induction oes generalizing acc with
  | nil => rfl
  | cons e rest ih =>
    rw [buildOptList]
    by_cases he : e.1 = k
    · have hstep : optStep params acc e = acc := by
        unfold optStep
        rw [he, hp]
      rw [hstep]; exact ih _
    · rw [ih _, optStep_lookup_ne params acc e k he]

theorem buildOptList_lookup_ne (params : List (String × Value))
    (oes : List (String × PType)) (acc : List (String × PArg)) (k : String)
    (h : ∀ e ∈ oes, e.1 ≠ k) :
    argLookup k (buildOptList params oes acc) = argLookup k acc := by
  induction oes generalizing acc with
  | nil => rfl
  | cons e rest ih =>
    rw [buildOptList, ih _ (fun x hx => h x (List.mem_cons_of_mem e hx)),
      optStep_lookup_ne params acc e k (h e (List.mem_cons_self e rest))]

/-- Core of claim C7: how the optional loop treats the key of an
optional schema entry - added exactly when the key is exactly present in
`params` and not already bound, with the reduced optional coercion;
never from a case-insensitive match, never from a schema default. -/
theorem buildOptList_char (params : List (String × Value))
    (oes : List (String × PType)) (k : String) (ty : PType)
    (hmem : (k, ty) ∈ oes) (hnodup : (oes.map Prod.fst).Nodup)
    (acc : List (String × PArg)) :
    argLookup k (buildOptList params oes acc) =
      (match argLookup k params with
       | some v => if hasKeyS k acc then argLookup k acc
           else some (.val (coerceOpt ty v))
       | none => argLookup k acc) := by
  induction oes generalizing acc with
  | nil => simp at hmem
  | cons e rest ih =>
    rcases List.mem_cons.mp hmem with he | hrest
    · have hkeys : ∀ x ∈ rest, x.1 ≠ k := by
        intro x hx hxk
        have h1 := nodup_head_key e rest hnodup
        rw [← he] at h1
        apply h1
        show k ∈ List.map Prod.fst rest
        rw [← hxk]
        exact List.mem_map_of_mem Prod.fst hx
      rw [buildOptList, buildOptList_lookup_ne params rest _ k hkeys]
      have heq : optStep params acc e = optStep params acc (k, ty) := by rw [← he]
      rw [heq]
      unfold optStep
      cases hl : argLookup k params with
      | none => rfl
      | some v =>
        by_cases hk : hasKeyS k acc = true
        · simp [hk]
        · simp only [Bool.not_eq_true] at hk
          simp [hk, argLookup_setArg_self]
    · have hne : e.1 ≠ k := by
        intro hk
        apply nodup_head_key e rest hnodup
        rw [hk]
        exact mem_key_in_map k ty rest hrest
      rw [buildOptList, ih hrest (nodup_tail_keys e rest hnodup) _,
        optStep_lookup_ne params acc e k hne, optStep_hasKey_ne params acc e k hne]

/-! ### Resolution and coercion helper lemmas -/

theorem resolveParam_none_of (params : List (String × Value)) (ty : PType) (k : String)
    (hex : argLookup k params = none) (hci : ciLookup k params = none)
    (hdef : defaultOf ty = none) : resolveParam params ty k = none := by
  unfold resolveParam resolveRaw
  rw [hex, hci, hdef]

theorem resolveParam_some_of (params : List (String × Value)) (ty : PType) (k : String)
    (v : Value) (hraw : resolveRaw params k = some v) (hvn : v ≠ Value.vNone) :
    resolveParam params ty k = some v := by
  unfold resolveParam
  rw [hraw]
  simp [hvn]

/-- The supplied value fails the numeric coercion its effective type-tag
dispatches to (so the tag is numeric AND the parse fails). -/
def numericParseFails (ty : PType) (v : Value) : Bool :=
  match effTag ty with
  | .tFloat => (pyFloat v).isNone
  | .tInt => (pyInt v).isNone
  | _ => false

theorem coerceParam_of_parseFails (ty : PType) (v : Value)
    (h : numericParseFails ty v = true) : coerceParam ty v = v := by
  cases htag : effTag ty with
  | tFloat =>
    cases hp : pyFloat v with
    | none => simp [coerceParam, htag, hp]
    | some q =>
      simp only [numericParseFails, htag, hp, Option.isNone_some] at h
      exact absurd h Bool.false_ne_true
  | tInt =>
    cases hp : pyInt v with
    | none => simp [coerceParam, htag, hp]
    | some n =>
      simp only [numericParseFails, htag, hp, Option.isNone_some] at h
      exact absurd h Bool.false_ne_true
  | tBool =>
    simp only [numericParseFails, htag] at h
    exact absurd h Bool.false_ne_true
  | tStr =>
    simp only [numericParseFails, htag] at h
    exact absurd h Bool.false_ne_true
  | tPass =>
    simp only [numericParseFails, htag] at h
    exact absurd h Bool.false_ne_true

theorem ne_image_of_isImageEntry_false (k : String) (ty : PType)
    (h : isImageEntry k ty = false) : k ≠ "image" := by
  unfold isImageEntry at h
  intro hk
  rw [hk] at h
  simp at h

/-- Lookup through the final convenience step of
`buildCallParamsSingle` is unchanged at keys other than `"image"`. -/
theorem buildCallParamsSingle_lookup (timg : Tensor) (it : Schema)
    (params : List (String × Value)) (k : String) (hk : k ≠ "image") :
    argLookup k (buildCallParamsSingle timg it params) =
      argLookup k (match it.optional with
        | none => buildRequired (.tens timg) it params
        | some oes => buildOptList params oes (buildRequired (.tens timg) it params)) := by
  cases ho : it.optional with
  | none =>
    simp only [buildCallParamsSingle, ho]
    split
    · rfl
    · split
      · exact argLookup_setArg_ne _ _ _ _ hk
      · rfl
  | some oes =>
    simp only [buildCallParamsSingle, ho]
    split
    · rfl
    · split
      · exact argLookup_setArg_ne _ _ _ _ hk
      · rfl

/-! ### Chain-executor lemmas -/

/-- The stage-skip test of source line 509: a stage resolves when its
type-name is non-empty, a (truthy) registry was found and the name is a
key of it. -/
def stageResolves (mappings : Option (List (String × NodeClass))) (st : StageSpec) : Bool :=
  (st.ntype != "") && (match mappings with
    | some m => (argLookup st.ntype m).isSome
    | none => false)

theorem chainStageStep_unresolved (mappings : Option (List (String × NodeClass)))
    (cur : PyObj) (st : StageSpec) (h : stageResolves mappings st = false) :
    chainStageStep mappings cur st = cur := by
  by_cases ht : st.ntype = ""
  · simp [chainStageStep, ht]
  · cases hm : mappings with
    | none => simp [chainStageStep, ht]
    | some m =>
      cases hl : argLookup st.ntype m with
      | none => simp [chainStageStep, ht, hl]
      | some nc =>
        exfalso
        simp only [stageResolves, hm, hl, Option.isSome_some, Bool.and_true,
          bne_eq_false_iff_eq] at h
        exact ht h

theorem runChain_unresolved (mappings : Option (List (String × NodeClass)))
    (cur : PyObj) (chain : List StageSpec)
    (h : ∀ st ∈ chain, stageResolves mappings st = false) :
    runChain mappings cur chain = cur := by
  induction chain generalizing cur with
  | nil => rfl
  | cons st rest ih =>
    rw [runChain, chainStageStep_unresolved mappings cur st (h st (List.mem_cons_self st rest))]
    exact ih cur (fun x hx => h x (List.mem_cons_of_mem st hx))

/-! ### Fallback-transform lemmas -/

def inRange255 (q : ℚ) : Bool := decide (0 ≤ q) && decide (q ≤ 255)

theorem clamp_map_inRange (l : List ℚ) :
    (l.map (fun x => npClip 0 255 x)).all inRange255 = true := by
  rw [List.all_eq_true]
  intro x hx
  rcases List.mem_map.mp hx with ⟨y, _, hy⟩
  rw [← hy]
  unfold inRange255 npClip
  rw [Bool.and_eq_true, decide_eq_true_iff, decide_eq_true_iff]
  constructor
  · exact le_min (by norm_num) (le_max_left 0 y)
  · exact min_le_left 255 _

theorem fallbackParamStep_inRange (useCv2 : Bool) (hsv sharpen : ℚ → List ℚ → List ℚ)
    (img : List ℚ) (pv : Value) (h : img.all inRange255 = true) :
    (fallbackParamStep useCv2 hsv sharpen img pv).all inRange255 = true := by
  unfold fallbackParamStep
  cases pyFloat pv with
  | none => exact h
  | some v =>
    by_cases hnoop : |v| < 1/10000 ∨ |v - 1| < 1/10000
    · simp only [if_pos hnoop]; exact h
    · simp only [if_neg hnoop]
      exact clamp_map_inRange _

/-- A value the fallback loop skips as a no-op: numerically parseable
and within 1e-4 of 0 or of 1. -/
def noopVal (v : Value) : Bool :=
  match pyFloat v with
  | some q => decide (|q| < 1/10000) || decide (|q - 1| < 1/10000)
  | none => false

theorem fallbackParamStep_noop (useCv2 : Bool) (hsv sharpen : ℚ → List ℚ → List ℚ)
    (img : List ℚ) (pv : Value) (h : noopVal pv = true) :
    fallbackParamStep useCv2 hsv sharpen img pv = img := by
  unfold noopVal at h
  unfold fallbackParamStep
  cases hp : pyFloat pv with
  | none => rfl
  | some q =>
    rw [hp] at h
    rw [Bool.or_eq_true, decide_eq_true_iff, decide_eq_true_iff] at h
    simp only [if_pos h]

theorem fallbackLoop_noop (useCv2 : Bool) (hsv sharpen : ℚ → List ℚ → List ℚ)
    (img : List ℚ) (params : List (String × Value))
    (h : params.all (fun p => noopVal p.2) = true) :
    fallbackLoop useCv2 hsv sharpen img params = img := by
  induction params generalizing img with
  | nil => rfl
  | cons p rest ih =>
    rw [List.all_cons, Bool.and_eq_true] at h
    rw [fallbackLoop, fallbackParamStep_noop useCv2 hsv sharpen img p.2 h.1]
    exact ih img h.2

theorem truncQ_natCast (n : ℕ) : truncQ ((n : ℚ)) = n := by
  simp [truncQ, Rat.num_natCast, Rat.den_natCast]

/-! ### The claim-side clamp-after-each-step fallback (for C6)

Modelled from the spec: "After each step, clamp channel values to the
valid range."  Identical to `fallbackParamStep` except that the single
end-of-iteration `np.clip` is replaced by a clamp after each of the four
steps. -/

def clampStep (l : List ℚ) : List ℚ := l.map (fun x => npClip 0 255 x)

def fallbackParamStepClampEach (useCv2 : Bool) (hsv sharpen : ℚ → List ℚ → List ℚ)
    (img : List ℚ) (pv : Value) : List ℚ :=
  match pyFloat pv with
  | none => img
  | some v =>
    if |v| < 1/10000 ∨ |v - 1| < 1/10000 then img
    else
      let img1 := if 1/10 ≤ |v| ∧ |v| ≤ 10 then
          clampStep (img.map (fun x => x * brightFactor v))
        else img
      let img2 := if 1/100 < |v| then clampStep (img1.map (fun x => x + v * (3/10)))
        else img1
      let img3 := if useCv2 ∧ 1/100 < |v| then clampStep (hsv v img2) else img2
      let img4 := if useCv2 ∧ 1/10 < |v| then clampStep (sharpen v img3) else img3
      img4

def fallbackLoopClampEach (useCv2 : Bool) (hsv sharpen : ℚ → List ℚ → List ℚ) :
    List ℚ → List (String × Value) → List ℚ
  | img, [] => img
  | img, p :: rest =>
    fallbackLoopClampEach useCv2 hsv sharpen
      (fallbackParamStepClampEach useCv2 hsv sharpen img p.2) rest

def fallbackUint8ClampEach (useCv2 : Bool) (hsv sharpen : ℚ → List ℚ → List ℚ)
    (img : List Nat) (params : List (String × Value)) : List Nat :=
  (fallbackLoopClampEach useCv2 hsv sharpen (img.map u8ToQ) params).map truncQ

/-! ### Claim C1 -/

/-- A node class whose entry point returns a bare rank-2 tensor. -/
def c1Node : NodeClass :=
  ⟨some ⟨some [("image", .tup "IMAGE" .absent)], none⟩, some "process", ["process"],
    fun _ => .ok (.retObj (.tens ⟨[2, 2], [1, 1, 1, 1]⟩))⟩

/-- C1: the claim says that when a chain stage's invocation yields
InvocationFailed (here: the entry point returns a tensor of rank 2 < 3),
the tensor carried into the next stage equals the tensor that entered
the failing stage.  The code violates this: `current_tensor` is
overwritten at source line 590 before the rank validation of line 604,
whose `continue` only skips the success log, so the invalid rank-2
tensor - logged as "格式无效" - is what the next stage receives. -/
theorem c1_chain_invalid_result_carried :
    chainStageStep (some [("Bad", c1Node)]) (.tens ⟨[1, 1, 1, 3], [0, 0, 0]⟩)
      ⟨"Bad", []⟩ = .tens ⟨[2, 2], [1, 1, 1, 1]⟩ ∧
    ([2, 2] : List Nat).length < 3 ∧
    (⟨[2, 2], [1, 1, 1, 1]⟩ : Tensor) ≠ ⟨[1, 1, 1, 3], [0, 0, 0]⟩ :=
  ⟨rfl, by decide, by decide⟩

/-! ### Claim C2 -/

/-- C2: for every schema and every ParameterBag, a required non-image,
non-hidden entry with no exact key match, no case-insensitive key match
and no schema-declared default is omitted from the AdaptedArguments
(adaptation is total here - nothing raises), both in the single-node
endpoint's `call_params` and in the chain endpoint's required-only
`call_params`. -/
theorem c2_required_missing_key_omitted (timg : Tensor) (cur : PyObj)
    (entries : List (String × PType)) (opt : Option (List (String × PType)))
    (params : List (String × Value)) (k : String) (ty : PType)
    (hmem : (k, ty) ∈ entries) (hnodup : (entries.map Prod.fst).Nodup)
    (hhid : isHiddenEntry k ty = false) (himg : isImageEntry k ty = false)
    (hex : argLookup k params = none) (hci : ciLookup k params = none)
    (hdef : defaultOf ty = none) :
    argLookup k (buildCallParamsSingle timg ⟨some entries, opt⟩ params) = none ∧
    argLookup k (buildRequired cur ⟨some entries, opt⟩ params) = none := by
  have hres := resolveParam_none_of params ty k hex hci hdef
  have hreq : ∀ img : PyObj,
      argLookup k (buildRequired img ⟨some entries, opt⟩ params) = none := fun img =>
    buildReqList_omitted img params entries k ty hmem hnodup hhid himg hres [] rfl
  refine ⟨?_, hreq cur⟩
  rw [buildCallParamsSingle_lookup timg ⟨some entries, opt⟩ params k
    (ne_image_of_isImageEntry_false k ty himg)]
  cases opt with
  | none => exact hreq _
  | some oes =>
    exact (buildOptList_preserve_noparam params oes _ k hex).trans (hreq _)

/-- C2 witness at a concrete schema and empty bag. -/
theorem c2_witness :
    (argLookup "strength" ([] : List (String × Value)) = none) ∧
    argLookup "strength"
      (buildCallParamsSingle ⟨[1, 1, 1, 3], [0]⟩
        ⟨some [("image", .tup "IMAGE" .absent), ("strength", .tup "FLOAT" .absent)],
         some [("mask", .tup "MASK" .absent)]⟩ []) = none ∧
    argLookup "strength"
      (buildRequired (.tens ⟨[1, 1, 1, 3], [0]⟩)
        ⟨some [("image", .tup "IMAGE" .absent), ("strength", .tup "FLOAT" .absent)],
         some [("mask", .tup "MASK" .absent)]⟩ []) = none :=
  ⟨rfl, c2_required_missing_key_omitted ⟨[1, 1, 1, 3], [0]⟩ (.tens ⟨[1, 1, 1, 3], [0]⟩)
    [("image", .tup "IMAGE" .absent), ("strength", .tup "FLOAT" .absent)]
    (some [("mask", .tup "MASK" .absent)]) [] "strength" (.tup "FLOAT" .absent)
    (by decide) (by decide) (by decide) (by decide) rfl rfl rfl⟩

/-! ### Claim C3 -/

/-- C3 counterexample: under the required entry
`("strength", ("FLOAT",))` and the bag `{"strength": None}`, the
supplied raw value `None` cannot be parsed as a float (`float(None)`
raises), yet the key IS dropped from the AdaptedArguments - the claim
as stated says it would be kept with the raw value. -/
theorem c3_counterexample :
    effTag (.tup "FLOAT" .absent) = CoTag.tFloat ∧
    pyFloat Value.vNone = none ∧
    argLookup "strength"
      (buildCallParamsSingle ⟨[1, 1, 1, 3], [0]⟩
        ⟨some [("strength", .tup "FLOAT" .absent)], none⟩
        [("strength", Value.vNone)]) = none :=
  ⟨by decide, rfl, by rfl⟩

/-- C3 (amended): for a required parameter with a numeric effective
type-tag, if the raw value the source resolves (exact match, else
case-insensitive match) is not `None` and fails the numeric parse, the
value placed in AdaptedArguments under that key is the original raw
value, unconverted - the key is not dropped.  (`None` raw values are
instead routed to the schema default or omitted.) -/
theorem c3_numeric_unparsable_value_kept (timg : Tensor) (cur : PyObj)
    (entries : List (String × PType)) (opt : Option (List (String × PType)))
    (params : List (String × Value)) (k : String) (ty : PType) (v : Value)
    (hmem : (k, ty) ∈ entries) (hnodup : (entries.map Prod.fst).Nodup)
    (hhid : isHiddenEntry k ty = false) (himg : isImageEntry k ty = false)
    (hraw : resolveRaw params k = some v) (hvn : v ≠ Value.vNone)
    (hfail : numericParseFails ty v = true) :
    argLookup k (buildCallParamsSingle timg ⟨some entries, opt⟩ params) = some (.val v) ∧
    argLookup k (buildRequired cur ⟨some entries, opt⟩ params) = some (.val v) := by
  have hres := resolveParam_some_of params ty k v hraw hvn
  have hco := coerceParam_of_parseFails ty v hfail
  have hreq : ∀ img : PyObj,
      argLookup k (buildRequired img ⟨some entries, opt⟩ params) = some (.val v) := by
    intro img
    have h1 := buildReqList_resolved img params entries k ty v hmem hnodup hhid himg hres []
    rwa [hco] at h1
  refine ⟨?_, hreq cur⟩
  rw [buildCallParamsSingle_lookup timg ⟨some entries, opt⟩ params k
    (ne_image_of_isImageEntry_false k ty himg)]
  cases opt with
  | none => exact hreq _
  | some oes => exact buildOptList_preserve_some params oes _ k _ (hreq _)

/-- C3 witness: the unparsable string "abc" under a FLOAT tag is kept
raw. -/
theorem c3_witness :
    numericParseFails (.tup "FLOAT" .absent) (.vStr "abc") = true ∧
    argLookup "strength"
      (buildCallParamsSingle ⟨[1, 1, 1, 3], [0]⟩
        ⟨some [("strength", .tup "FLOAT" .absent)], none⟩
        [("strength", Value.vStr "abc")]) = some (.val (.vStr "abc")) :=
  ⟨by decide, (c3_numeric_unparsable_value_kept ⟨[1, 1, 1, 3], [0]⟩
    (.tens ⟨[1, 1, 1, 3], [0]⟩) [("strength", .tup "FLOAT" .absent)] none
    [("strength", Value.vStr "abc")] "strength" (.tup "FLOAT" .absent)
    (.vStr "abc") (by decide) (by decide) (by decide) (by decide) rfl
    (by decide) (by decide)).1⟩

/-! ### Claim C4 -/

/-- C4: when no stage of the chain resolves in the registry, the chain
endpoint does not abort: the loop returns the decoded input tensor
unchanged and the response is the success JSON encoding exactly that
tensor. -/
theorem c4_chain_all_unresolved_identity (dec : String → Option ImgArray)
    (mappings : Option (List (String × NodeClass))) (body : ChainBody)
    (s : String) (arr : ImgArray) (chainL : List StageSpec)
    (hchain : body.chainField = some chainL) (hne : chainL ≠ [])
    (hs : body.imageData = some s) (hdec : dec s = some arr)
    (hrank : arr.shape.length = 3)
    (hfail : ∀ st ∈ chainL, stageResolves mappings st = false) :
    runChain mappings (.tens (mkTensor arr)) chainL = .tens (mkTensor arr) ∧
    process_image_preview_chain dec mappings body = .ok (encodeTensor (mkTensor arr)) := by
  have hrun := runChain_unresolved mappings (.tens (mkTensor arr)) chainL hfail
  have hismp : chainL.isEmpty = false := by
    cases chainL with
    | nil => exact absurd rfl hne
    | cons a l => rfl
  refine ⟨hrun, ?_⟩
  simp only [process_image_preview_chain, hchain, Option.getD_some, hismp,
    Bool.false_eq_true, if_false, hs, hdec, hrank, if_true, hrun]

def c4Node : NodeClass :=
  ⟨some ⟨some [("image", .tup "IMAGE" .absent)], none⟩, some "process", ["process"],
    fun _ => .ok .retNone⟩

def c4Dec : String → Option ImgArray := fun _ => some ⟨[1, 2, 3], [5, 6, 7, 8, 9, 10]⟩

/-- C4 witness: a 2-stage chain of unknown type-names over a 1×2 RGB
image. -/
theorem c4_witness :
    (∀ st ∈ [(⟨"Unknown1", []⟩ : StageSpec), ⟨"Unknown2", []⟩],
      stageResolves (some [("Known", c4Node)]) st = false) ∧
    process_image_preview_chain c4Dec (some [("Known", c4Node)])
      ⟨some "img", some [⟨"Unknown1", []⟩, ⟨"Unknown2", []⟩]⟩ =
      .ok (encodeTensor (mkTensor ⟨[1, 2, 3], [5, 6, 7, 8, 9, 10]⟩)) :=
  ⟨by decide, (c4_chain_all_unresolved_identity c4Dec (some [("Known", c4Node)])
    ⟨some "img", some [⟨"Unknown1", []⟩, ⟨"Unknown2", []⟩]⟩ "img"
    ⟨[1, 2, 3], [5, 6, 7, 8, 9, 10]⟩ [⟨"Unknown1", []⟩, ⟨"Unknown2", []⟩]
    rfl (List.cons_ne_nil _ _) rfl rfl rfl (by decide)).2⟩

/-! ### Claim C5 -/

/-- C5 counterexample: the value -1 has magnitude exactly 1, so the
claim calls it a no-op; but the code's skip test is
`abs(value - 1.0) < 0.0001`, not a magnitude test, so -1 is processed:
brightness factor 1/|-1| = 1 (no change) then contrast offset
-1 * 0.3 = -0.3, which turns pixel 100 into 99.7 and, after the uint8
truncation, into 99. -/
theorem c5_counterexample :
    |(-1 : ℚ)| = 1 ∧
    fallbackUint8 false (fun _ l => l) (fun _ l => l) [100]
      [("p", Value.vFloat (-1))] = [99] ∧
    ([99] : List Nat) ≠ [100] :=
  ⟨by decide, by decide, by decide⟩

/-- C5 (amended): every ParameterBag entry whose numeric value is within
1e-4 of 0 or of 1 (the value itself, not its magnitude) is a no-op, and
a bag consisting only of such values leaves the image unchanged -
whatever the cv2 availability and behaviour. -/
theorem c5_noop_values_leave_image_unchanged (useCv2 : Bool)
    (hsv sharpen : ℚ → List ℚ → List ℚ) (img : List Nat)
    (params : List (String × Value))
    (h : params.all (fun p => noopVal p.2) = true) :
    fallbackUint8 useCv2 hsv sharpen img params = img := by
  unfold fallbackUint8
  rw [fallbackLoop_noop useCv2 hsv sharpen _ params h]
  induction img with
  | nil => rfl
  | cons n rest ih => simp only [List.map_cons, u8ToQ, truncQ_natCast, ih]

/-- C5 witness: the bag {a: 0, b: 1, c: "1.0"} leaves [0, 100, 255]
unchanged even with cv2 "available" and hostile cv2 functions. -/
theorem c5_witness :
    ([("a", Value.vFloat 0), ("b", Value.vFloat 1),
      ("c", Value.vStr "1.0")].all (fun p => noopVal p.2) = true) ∧
    fallbackUint8 true (fun _ _ => []) (fun _ _ => []) [0, 100, 255]
      [("a", Value.vFloat 0), ("b", Value.vFloat 1), ("c", Value.vStr "1.0")] =
      [0, 100, 255] :=
  ⟨by decide, c5_noop_values_leave_image_unchanged true (fun _ _ => []) (fun _ _ => [])
    [0, 100, 255] [("a", Value.vFloat 0), ("b", Value.vFloat 1), ("c", Value.vStr "1.0")]
    (by decide)⟩

/-! ### Claim C6 -/

/-- C6 counterexample: with value -1/2 on pixel 200 (and no cv2), the
code's transform - brightness ×2 then offset -0.15 then ONE clip at the
end of the iteration - yields 255, while the claim's
clamp-after-each-step transform yields 254 (400 clamps to 255 before the
offset).  The two disagree, so channel values are NOT clamped after each
step. -/
theorem c6_counterexample :
    fallbackUint8 false (fun _ l => l) (fun _ l => l) [200]
      [("p", Value.vFloat (-1/2))] = [255] ∧
    fallbackUint8ClampEach false (fun _ l => l) (fun _ l => l) [200]
      [("p", Value.vFloat (-1/2))] = [254] :=
  ⟨by decide, by decide⟩

/-- C6 (amended): the fallback clamps once per processed parameter,
after the four steps (source line 382); consequently every channel value
entering the next parameter's processing - and the final buffer - stays
within [0, 255] whenever the input buffer does, for any cv2 behaviour. -/
theorem c6_clamp_once_per_param_in_range (useCv2 : Bool)
    (hsv sharpen : ℚ → List ℚ → List ℚ) (img : List ℚ)
    (params : List (String × Value)) (h : img.all inRange255 = true) :
    (fallbackLoop useCv2 hsv sharpen img params).all inRange255 = true := by
  induction params generalizing img with
  | nil => exact h
  | cons p rest ih =>
    rw [fallbackLoop]
    exact ih _ (fallbackParamStep_inRange useCv2 hsv sharpen img p.2 h)

/-- C6 witness: a processed parameter (value 3) keeps [100, 0, 255]
within range. -/
theorem c6_witness :
    ([(100 : ℚ), 0, 255].all inRange255 = true) ∧
    (fallbackLoop false (fun _ l => l) (fun _ l => l) [(100 : ℚ), 0, 255]
      [("p", Value.vFloat 3)]).all inRange255 = true :=
  ⟨by decide, c6_clamp_once_per_param_in_range false (fun _ l => l) (fun _ l => l)
    [(100 : ℚ), 0, 255] [("p", Value.vFloat 3)] (by decide)⟩

/-! ### Claim C7 -/

/-- C7 counterexample: the optional entry `("Strength", ("FLOAT",))` has
a case-insensitive match ("strength") in the bag, which required-entry
resolution would find; the optional loop ignores it and the key is
omitted - so optional entries are NOT resolved the same way as required
ones. -/
theorem c7_counterexample :
    ciLookup "Strength" [("strength", Value.vFloat 2)] = some (.vFloat 2) ∧
    argLookup "Strength"
      (buildCallParamsSingle ⟨[1, 1, 1, 3], [0]⟩
        ⟨some [], some [("Strength", .tup "FLOAT" .absent)]⟩
        [("strength", Value.vFloat 2)]) = none :=
  ⟨by rfl, by rfl⟩

/-- C7 (amended): an optional schema entry is added to AdaptedArguments
exactly when its key is present in the ParameterBag by EXACT match and
not already bound, taking the exactly-matched value through the reduced
optional coercion; no case-insensitive fallback and no schema-default
substitution happen for optional entries. -/
theorem c7_optional_exact_only (timg : Tensor) (req : Option (List (String × PType)))
    (oes : List (String × PType)) (params : List (String × Value))
    (k : String) (ty : PType)
    (hmem : (k, ty) ∈ oes) (hnodup : (oes.map Prod.fst).Nodup) (hki : k ≠ "image") :
    argLookup k (buildCallParamsSingle timg ⟨req, some oes⟩ params) =
      (match argLookup k params with
       | some v =>
         if hasKeyS k (buildRequired (.tens timg) ⟨req, some oes⟩ params) then
           argLookup k (buildRequired (.tens timg) ⟨req, some oes⟩ params)
         else some (.val (coerceOpt ty v))
       | none => argLookup k (buildRequired (.tens timg) ⟨req, some oes⟩ params)) := by
  rw [buildCallParamsSingle_lookup timg ⟨req, some oes⟩ params k hki]
  exact buildOptList_char params oes k ty hmem hnodup _

/-- C7 witness: an exactly-matching optional key is added with the
optional FLOAT coercion applied to the exact value. -/
theorem c7_witness :
    (("Strength" : String) ≠ "image") ∧
    argLookup "Strength"
      (buildCallParamsSingle ⟨[1, 1, 1, 3], [0]⟩
        ⟨some [], some [("Strength", .tup "FLOAT" .absent)]⟩
        [("Strength", Value.vStr "2.5")]) = some (.val (.vFloat (5/2))) := by
  refine ⟨by decide, ?_⟩
  rw [c7_optional_exact_only ⟨[1, 1, 1, 3], [0]⟩ (some [])
    [("Strength", .tup "FLOAT" .absent)] [("Strength", Value.vStr "2.5")]
    "Strength" (.tup "FLOAT" .absent) (by decide) (by decide) (by decide)]
  rfl

/-! ### Claim C8 -/

/-- C8: on a decodable rank-3 image, when the node resolves (registry
found, type present, schema and entry point found) and the entry point
raises, the single-node endpoint still answers with the success response
built from the generic fallback transform - the exception is never
propagated. -/
theorem c8_entry_point_raise_fallback_success (dec : String → Option ImgArray)
    (m : List (String × NodeClass)) (nc : NodeClass) (it : Schema) (fn : String)
    (useCv2 : Bool) (hsv sharpen : ℚ → List ℚ → List ℚ) (body : ProcBody)
    (s : String) (arr : ImgArray)
    (hs : body.imageData = some s) (hdec : dec s = some arr)
    (hrank : arr.shape.length = 3) (hnt : body.nodeType ≠ "")
    (hlookup : argLookup body.nodeType m = some nc)
    (hit : nc.inputTypes = some it) (hfn : resolveFuncName nc = some fn)
    (hraise : nc.func (buildCallParamsSingle (mkTensor arr) it body.params) =
      .error ()) :
    process_image_preview dec (some m) useCv2 hsv sharpen body =
      .ok (encodeTensor (fallbackTensor useCv2 hsv sharpen arr body.params)) := by
  have hinv : invokeNode (some m) body.nodeType body.params (mkTensor arr) = none := by
    simp only [invokeNode, hlookup, hit, hfn, hraise]
  simp only [process_image_preview, hs, hdec, hrank, if_true, ne_eq, hnt,
    not_false_eq_true, if_pos, hinv, ite_self]

def c8Node : NodeClass :=
  ⟨some ⟨some [("image", .tup "IMAGE" .absent)], none⟩, some "process", ["process"],
    fun _ => .error ()⟩

def c8Dec : String → Option ImgArray := fun _ => some ⟨[1, 1, 3], [10, 20, 30]⟩

/-- C8 witness: a registered node whose entry point always raises. -/
theorem c8_witness :
    (c8Node.func (buildCallParamsSingle (mkTensor ⟨[1, 1, 3], [10, 20, 30]⟩)
      ⟨some [("image", .tup "IMAGE" .absent)], none⟩ []) = .error ()) ∧
    process_image_preview c8Dec (some [("Boom", c8Node)]) false (fun _ l => l)
      (fun _ l => l) ⟨some "img", "Boom", []⟩ =
      .ok (encodeTensor (fallbackTensor false (fun _ l => l) (fun _ l => l)
        ⟨[1, 1, 3], [10, 20, 30]⟩ [])) :=
  ⟨rfl, c8_entry_point_raise_fallback_success c8Dec [("Boom", c8Node)] c8Node
    ⟨some [("image", .tup "IMAGE" .absent)], none⟩ "process" false
    (fun _ l => l) (fun _ l => l) ⟨some "img", "Boom", []⟩ "img"
    ⟨[1, 1, 3], [10, 20, 30]⟩ rfl rfl rfl (by decide) rfl rfl rfl rfl⟩

/-! ### Claim C9 -/

/-- C9: a chain request whose chain list is absent or empty is answered
with the HTTP 400 error response carrying the error string, no matter
what the image data, the decoder or the registry are - so no image
decoding and no stage processing can influence (or be reached by) the
response. -/
theorem c9_empty_chain_bad_request (dec : String → Option ImgArray)
    (mappings : Option (List (String × NodeClass))) (imgd : Option String) :
    process_image_preview_chain dec mappings ⟨imgd, none⟩ = .badRequest "节点链为空" ∧
    process_image_preview_chain dec mappings ⟨imgd, some []⟩ = .badRequest "节点链为空" :=
  ⟨rfl, rfl⟩

/-! ### Claim C10 -/

/-- C10: when `node_type` is the empty string (the `data.get` default,
covering an absent field), the single-node endpoint bypasses registry
lookup and node invocation entirely - the response is the same success
JSON built from the generic fallback transform for EVERY registry state. -/
theorem c10_empty_node_type_bypasses_registry (dec : String → Option ImgArray)
    (useCv2 : Bool) (hsv sharpen : ℚ → List ℚ → List ℚ) (body : ProcBody)
    (s : String) (arr : ImgArray)
    (hs : body.imageData = some s) (hdec : dec s = some arr)
    (hrank : arr.shape.length = 3) (hnt : body.nodeType = "") :
    ∀ mappings : Option (List (String × NodeClass)),
      process_image_preview dec mappings useCv2 hsv sharpen body =
        .ok (encodeTensor (fallbackTensor useCv2 hsv sharpen arr body.params)) := by
  intro mappings
  simp only [process_image_preview, hs, hdec, hrank, if_true, hnt, ne_eq,
    not_true_eq_false, if_false, ite_self]

def c10Dec : String → Option ImgArray :=
  fun _ => some ⟨[1, 2, 3], [0, 10, 20, 200, 210, 220]⟩

/-- C10 witness: empty node_type with a populated registry still takes
the fallback path. -/
theorem c10_witness :
    ((⟨some "payload", "", [("brightness", Value.vFloat 2)]⟩ : ProcBody).nodeType = "") ∧
    process_image_preview c10Dec (some [("ImagePreviewNode", c8Node)]) false
      (fun _ l => l) (fun _ l => l)
      ⟨some "payload", "", [("brightness", Value.vFloat 2)]⟩ =
      .ok (encodeTensor (fallbackTensor false (fun _ l => l) (fun _ l => l)
        ⟨[1, 2, 3], [0, 10, 20, 200, 210, 220]⟩ [("brightness", Value.vFloat 2)])) :=
  ⟨rfl, c10_empty_node_type_bypasses_registry c10Dec false (fun _ l => l) (fun _ l => l)
    ⟨some "payload", "", [("brightness", Value.vFloat 2)]⟩ "payload"
    ⟨[1, 2, 3], [0, 10, 20, 200, 210, 220]⟩ rfl rfl rfl rfl
    (some [("ImagePreviewNode", c8Node)])⟩

end ImagePreviewModel
